import Mathlib

/-!
# Verification of the Atlas travel-planner orchestration core

Shallow embedding of the plan-execute-verify-repair loop of the backend
(`app/nodes/*.py`, `app/services/agent_service.py`) together with proofs of
the specification claims about it.

Modelling conventions:
* Python `datetime` timestamps are abstract `Nat` ticks; only presence
  (`Option.isSome`) and day-level differences matter to the verified code.
* Python dictionaries with a fixed key set become structures; a key whose
  value may be absent or `None` becomes an `Option` field.
* A `PlanStep.args` value is `Any` in Python while `ToolCall.args` is a
  validated `Dict[str, str]`-like bag; the inductive `Args` keeps both
  shapes so that the pydantic validation failure in the executor is
  representable.
* Tool results produced by the three built-in tools involve randomness and
  I/O, so tool invocation is parametrised by an abstract invoker function;
  the claims proved here do not depend on the produced strings.
-/

namespace Atlas

/-- Lowercase substring utilities mirroring Python `"kw" in s.lower()`. -/
def charsContains (needle : List Char) : List Char → Bool
  | [] => needle.isEmpty
  | c :: rest => needle.isPrefixOf (c :: rest) || charsContains needle rest

/-- ASCII lowercasing of one character (Python `str.lower` on the ASCII
text this system produces). -/
def lowerChar (c : Char) : Char :=
  if 'A' ≤ c ∧ c ≤ 'Z' then Char.ofNat (c.toNat + 32) else c

/-- `lcontains v kw` models Python `kw in v.lower()` (the keywords in the
source are already lowercase). -/
def lcontains (v kw : String) : Bool :=
  charsContains kw.data (v.data.map lowerChar)

/-- Argument bag of a plan step: `PlanStep.args` is typed `Any` in the
source, so it may either be a proper string-keyed dictionary or some other
value (modelled as `raw`), which the executor's `ToolCall` construction
rejects. -/
inductive Args where
  | dict (kvs : List (String × String))
  | raw (v : String)
deriving DecidableEq, Repr

/-- `app/schemas/agent.py` `PlanStep` (TypedDict). -/
structure PlanStep where
  id : String
  depends_on : List String
  tool : String
  args : Args
deriving DecidableEq, Repr

/-- `app/schemas/agent.py` `ToolCall` (pydantic). `args` is a validated
string-keyed dictionary; timestamps are abstract ticks. -/
structure ToolCall where
  id : String
  tool : String
  args : List (String × String)
  result : Option String := none
  error : Option String := none
  started_at : Nat
  completed_at : Option Nat := none
  duration_ms : Option Nat := none
deriving DecidableEq, Repr

/-- Ids of tool calls whose `completed_at` is non-null
(`ExecutorNode._find_executable_steps`, the `completed_step_ids` set). -/
def completedStepIds (tool_calls : List ToolCall) : List String :=
  (tool_calls.filter (fun tc => tc.completed_at.isSome)).map (·.id)

/-- `ExecutorNode._find_executable_steps`: keep the steps of the plan all of
whose dependency ids appear among the completed tool-call ids. -/
def findExecutableSteps (plan : List PlanStep) (tool_calls : List ToolCall) :
    List PlanStep :=
  plan.filter (fun step =>
    step.depends_on.all (fun dep => (completedStepIds tool_calls).contains dep))

/-- Tool names the executor can dispatch
(`ExecutorNode._execute_single_step`). -/
def executorKnownTools : List String := ["weather", "search_flights", "agent"]

/-- `ExecutorNode._execute_single_step`: dispatch on the tool name; the
three built-in tools return a result string (abstracted by `invoker`, which
stands for the weather/flights/agent bodies, none of which raise), any
other tool name raises `ValueError(f"Unknown tool: {tool_name}")`. -/
def executeSingleStep (invoker : String → List (String × String) → String)
    (tool : String) (args : List (String × String)) : Except String String :=
  if tool = "weather" then .ok (invoker tool args)
  else if tool = "search_flights" then .ok (invoker tool args)
  else if tool = "agent" then .ok (invoker tool args)
  else .error ("Unknown tool: " ++ tool)

/-- Construction of the `ToolCall` record for a step
(`ExecutorNode._execute_steps`, the first loop): pydantic validates that
`args` is a dictionary, so a step whose `args` is not one raises out of the
loop (caught only by the executor's outer `except`). -/
def buildToolCall (now : Nat) (step : PlanStep) : Except String ToolCall :=
  match step.args with
  | .dict kvs => .ok { id := step.id, tool := step.tool, args := kvs, started_at := now }
  | .raw _ => .error "ToolCall validation error: args is not a dict"

/-- `execute_step_with_timing`: run one step and fill in the tool-call
record; both the success and the error branch set `completed_at`. -/
def runStepWithTiming (invoker : String → List (String × String) → String)
    (now : Nat) (tc : ToolCall) : ToolCall :=
  match executeSingleStep invoker tc.tool tc.args with
  | .ok r =>
      { tc with result := some r, completed_at := some now, duration_ms := some 0 }
  | .error e =>
      { tc with error := some e, completed_at := some now, duration_ms := some 0 }

/-- The tool-call construction loop of `ExecutorNode._execute_steps`: the
first validation failure raises out of the loop. -/
def buildToolCalls (now : Nat) : List PlanStep → Except String (List ToolCall)
  | [] => .ok []
  | step :: rest =>
      match buildToolCall now step, buildToolCalls now rest with
      | .ok tc, .ok tcs => .ok (tc :: tcs)
      | .error e, _ => .error e
      | .ok _, .error e => .error e

/-- `ExecutorNode._execute_steps`: build the tool-call records (any
validation failure aborts the whole round), then execute every step and
record its outcome on its record. -/
def executeSteps (invoker : String → List (String × String) → String)
    (now : Nat) (steps : List PlanStep) : Except String (List ToolCall) :=
  match buildToolCalls now steps with
  | .ok tcs => .ok (tcs.map (runStepWithTiming invoker now))
  | .error e => .error e

/-! ## Itinerary and constraint records consumed by the verifier -/

/-- `app/schemas/agent.py` `Activity`. -/
structure Activity where
  name : String
  description : String
  duration : Option Nat := none
  cost : Option Rat := none
  location : Option String := none
deriving DecidableEq, Repr

/-- `app/schemas/agent.py` `DayPlan`. -/
structure DayPlan where
  date : Option String := none
  activities : List Activity := []
  total_cost : Option Rat := none
deriving DecidableEq, Repr

/-- `app/schemas/agent.py` `Itinerary`; the state carries it as a dict, with
the empty dict modelled as `Option.none` at the use sites. -/
structure Itin where
  total_cost_usd : Option Rat := none
  days : List DayPlan := []
deriving DecidableEq, Repr

/-- The two preference keys `VerifierNode._check_preference_fit` reads from
the preferences dict. -/
structure VPrefs where
  kid_friendly : Option Bool := none
  museums : Option Bool := none
deriving DecidableEq, Repr

/-- The keys `VerifierNode` reads from the constraints dict (`budget`,
`start_date`, `end_date`, `preferences`); a missing or empty preferences
dict is `none`. -/
structure VConstraints where
  budget : Option Rat := none
  start_date : Option String := none
  end_date : Option String := none
  preferences : Option VPrefs := none
deriving DecidableEq, Repr

/-- Python truthiness of an optional number (`None` and `0` are falsy). -/
def truthyRat : Option Rat → Bool
  | none => false
  | some v => v != 0

/-- Python truthiness of an optional string (`None` and `""` are falsy). -/
def truthyStr : Option String → Bool
  | none => false
  | some s => !s.isEmpty

/-- Python truthiness of an optional boolean. -/
def truthyBool : Option Bool → Bool
  | none => false
  | some b => b

/-- Two-decimal money rendering, modelling Python's `f"{x:.2f}"` for the
non-negative amounts that occur in the verifier's messages. -/
def fmtMoney (x : Rat) : String :=
  let cents : Int := (x * 100).floor
  let frac := (cents % 100).toNat
  toString (cents / 100) ++ "." ++ (if frac < 10 then "0" else "") ++ toString frac

/-- Days-from-civil-epoch formula; all divisions have non-negative operands
for the years in range. -/
def daysFromCivil (y m d : Int) : Int :=
  let y' := if m ≤ 2 then y - 1 else y
  let era : Int := (if 0 ≤ y' then y' else y' - 399) / 400
  let yoe := y' - era * 400
  let doy := (153 * (m + (if 2 < m then -3 else 9)) + 2) / 5 + d - 1
  let doe := yoe * 365 + yoe / 4 - yoe / 100 + doy
  era * 146097 + doe - 719468

/-- Digit value of a character. -/
def digitVal (c : Char) : Int := (c.toNat : Int) - 48

/-- Models `datetime.fromisoformat` for the `YYYY-MM-DD` strings the system
exchanges, returning the date as a day count; any other string is a parse
failure (`ValueError`), which the verifier's handlers turn into a skipped
check. -/
def parseDate10 (s : String) : Option Int :=
  match s.data with
  | [y1, y2, y3, y4, h1, m1, m2, h2, d1, d2] =>
      if h1 = '-' && h2 = '-' && y1.isDigit && y2.isDigit && y3.isDigit &&
         y4.isDigit && m1.isDigit && m2.isDigit && d1.isDigit && d2.isDigit then
        let y := 1000 * digitVal y1 + 100 * digitVal y2 + 10 * digitVal y3 + digitVal y4
        let m := 10 * digitVal m1 + digitVal m2
        let d := 10 * digitVal d1 + digitVal d2
        if 1 ≤ m && m ≤ 12 && 1 ≤ d && d ≤ 31 then some (daysFromCivil y m d)
        else none
      else none
  | _ => none

/-! ## VerifierNode -/

/-- `VerifierNode._check_budget_constraints`. -/
def checkBudgetConstraints (itin : Itin) (c : VConstraints) : List String :=
  if truthyRat c.budget && truthyRat itin.total_cost_usd &&
      decide (c.budget.getD 0 < itin.total_cost_usd.getD 0) then
    ["Total cost $" ++ fmtMoney (itin.total_cost_usd.getD 0) ++
      " exceeds budget of $" ++ fmtMoney (c.budget.getD 0)]
  else []

/-- `VerifierNode._check_date_constraints`; a date-parse failure skips the
check, mirroring the `except (ValueError, AttributeError)` handler. -/
def checkDateConstraints (itin : Itin) (c : VConstraints) : List String :=
  if truthyStr c.start_date && truthyStr c.end_date && !itin.days.isEmpty then
    match parseDate10 (c.start_date.getD ""), parseDate10 (c.end_date.getD "") with
    | some s, some e =>
        let maxDays : Int := e - s + 1
        if (itin.days.length : Int) > maxDays then
          ["Itinerary has " ++ toString itin.days.length ++ " days but only " ++
            toString maxDays ++ " days available between " ++ c.start_date.getD "" ++
            " and " ++ c.end_date.getD ""]
        else []
    | _, _ => []
  else []

/-- `VerifierNode._check_activity_conflicts`. -/
def checkActivityConflicts (itin : Itin) : List String :=
  itin.days.enum.filterMap (fun p =>
    if p.2.activities.length > 8 then
      some ("Day " ++ toString (p.1 + 1) ++ " has " ++ toString p.2.activities.length ++
        " activities which may cause scheduling conflicts")
    else none)

/-- `VerifierNode._check_location_feasibility`: count the activities of a
day carrying a truthy location string. -/
def checkLocationFeasibility (itin : Itin) : List String :=
  itin.days.enum.filterMap (fun p =>
    let locations := p.2.activities.filterMap (fun a =>
      match a.location with
      | some l => if l.isEmpty then none else some l
      | none => none)
    if locations.length > 5 then
      some ("Day " ++ toString (p.1 + 1) ++ " has activities in " ++
        toString locations.length ++ " different locations which may not be feasible")
    else none)

/-- `VerifierNode._check_weather_appropriateness`: `now` is the current day
read from the ambient clock (`datetime.now()`), at day granularity. -/
def checkWeatherAppropriateness (now : Int) (itin : Itin) (c : VConstraints) :
    List String :=
  if truthyStr c.start_date then
    match parseDate10 (c.start_date.getD "") with
    | none => []
    | some start =>
        let daysUntilTrip := start - now
        if 0 ≤ daysUntilTrip && daysUntilTrip ≤ 10 then
          itin.days.enum.filterMap (fun p =>
            if p.2.activities.any (fun a =>
                lcontains a.description "outdoor" || lcontains a.name "park") then
              some ("Day " ++ toString (p.1 + 1) ++
                " has outdoor activities - verify weather conditions for " ++
                c.start_date.getD "")
            else none)
        else []
  else []

/-- Keywords of `VerifierNode._check_preference_fit`'s kid-friendly rule. -/
def adultOnlyKeywords : List String := ["bar", "nightclub", "casino", "adult"]

/-- `VerifierNode._check_preference_fit`: at most one kid-friendly violation
per day (the source breaks out of the activity loop), one museum violation
for the whole itinerary. -/
def checkPreferenceFit (itin : Itin) (c : VConstraints) : List String :=
  match c.preferences with
  | none => []
  | some prefs =>
      let kid :=
        if truthyBool prefs.kid_friendly && !itin.days.isEmpty then
          itin.days.enum.filterMap (fun p =>
            if p.2.activities.any (fun a =>
                adultOnlyKeywords.any (fun kw =>
                  lcontains (a.name ++ " " ++ a.description) kw)) then
              some ("Day " ++ toString (p.1 + 1) ++
                " includes activities that may not be kid-friendly")
            else none)
        else []
      let museum :=
        if truthyBool prefs.museums && !itin.days.isEmpty then
          if itin.days.any (fun day => day.activities.any (fun a =>
              lcontains a.name "museum" || lcontains a.description "museum")) then []
          else ["No museums included despite user preference for museums"]
        else []
      kid ++ museum

/-- `VerifierNode.__call__`: short-circuit on a missing itinerary or an
itinerary with no days, otherwise evaluate every rule and concatenate. The
state's itinerary dict is `none` when empty. -/
def verify (now : Int) (itinerary : Option Itin) (c : VConstraints) : List String :=
  match itinerary with
  | none => ["No itinerary found to validate"]
  | some itin =>
      if itin.days.isEmpty then ["No itinerary found to validate"]
      else
        checkBudgetConstraints itin c ++ checkDateConstraints itin c ++
        checkActivityConflicts itin ++ checkLocationFeasibility itin ++
        checkWeatherAppropriateness now itin c ++ checkPreferenceFit itin c

/-! ## RepairNode -/

/-- Keyword test of the budget branch of `RepairNode._generate_repair_tasks`. -/
def violationHasBudget (v : String) : Bool :=
  lcontains v "budget" || lcontains v "cost"

/-- Keyword test of the scheduling branch. -/
def violationHasSchedule (v : String) : Bool :=
  lcontains v "day" && (lcontains v "conflict" || lcontains v "activities")

/-- Keyword test of the location branch. -/
def violationHasLocation (v : String) : Bool :=
  lcontains v "location" || lcontains v "feasible"

/-- Keyword test of the weather branch. -/
def violationHasWeather (v : String) : Bool :=
  lcontains v "weather" || lcontains v "outdoor"

/-- Keyword test of the preference branch. -/
def violationHasPreference (v : String) : Bool :=
  lcontains v "kid-friendly" || lcontains v "museum" || lcontains v "preference"

/-- Keyword test of the date-range branch. -/
def violationHasDate (v : String) : Bool :=
  lcontains v "date" && (lcontains v "exceed" || lcontains v "available")

/-- The argument dictionary each repair branch attaches. -/
def mkRepairArgs (v action target : String) : Args :=
  .dict [("violation", v), ("action", action), ("target", target)]

/-- One iteration of `RepairNode._generate_repair_tasks`: the if/elif chain
classifying a violation string, first match wins, `depends_on = []`, and
`idv` standing for the fresh `str(uuid.uuid4())`. -/
def mkRepairTask (idv v : String) : PlanStep :=
  if violationHasBudget v then
    ⟨idv, [], "budget_optimizer", mkRepairArgs v "reduce_costs" "activities_and_accommodations"⟩
  else if violationHasSchedule v then
    ⟨idv, [], "schedule_optimizer", mkRepairArgs v "redistribute_activities" "daily_schedule"⟩
  else if violationHasLocation v then
    ⟨idv, [], "location_optimizer", mkRepairArgs v "cluster_activities" "geographic_proximity"⟩
  else if violationHasWeather v then
    ⟨idv, [], "weather_adapter", mkRepairArgs v "substitute_activities" "weather_appropriate_alternatives"⟩
  else if violationHasPreference v then
    ⟨idv, [], "preference_aligner", mkRepairArgs v "align_with_preferences" "activity_selection"⟩
  else if violationHasDate v then
    ⟨idv, [], "date_adjuster", mkRepairArgs v "compress_itinerary" "trip_duration"⟩
  else
    ⟨idv, [], "generic_fixer", mkRepairArgs v "analyze_and_fix" "itinerary_optimization"⟩

/-- `RepairNode._generate_repair_tasks`: one task per violation, ids drawn
from the supply `ids` starting at index `fresh` (modelling the independent
`uuid.uuid4()` draws). -/
def generateRepairTasks (ids : Nat → String) (fresh : Nat) :
    List String → List PlanStep
  | [] => []
  | v :: rest => mkRepairTask (ids fresh) v :: generateRepairTasks ids (fresh + 1) rest

/-- `RepairNode.__call__`: with no violations the plan is returned
unchanged, otherwise the generated repair tasks are appended to it. -/
def repairNodeCall (ids : Nat → String) (fresh : Nat) (violations : List String)
    (plan : List PlanStep) : List PlanStep :=
  if violations.isEmpty then plan
  else plan ++ generateRepairTasks ids fresh violations

/-! ## IntentNode constraint merge -/

/-- `app/nodes/intent.py` `TravelPreferences` (pydantic, all keys default
`None`). -/
structure TravelPreferences where
  family_friendly : Option Bool := none
  luxury : Option Bool := none
  budget_friendly : Option Bool := none
  adventure : Option Bool := none
  cultural : Option Bool := none
  relaxation : Option Bool := none
deriving DecidableEq, Repr

/-- `app/nodes/intent.py` `TravelDates` (pydantic, defaults `""`). -/
structure TravelDates where
  start : String := ""
  «end» : String := ""
deriving DecidableEq, Repr

/-- `app/nodes/intent.py` `TravelConstraints`. -/
structure TravelConstraints where
  budget_usd : Option Rat := none
  dates : TravelDates := {}
  airports : List String := []
  preferences : TravelPreferences := {}
deriving DecidableEq, Repr

/-- A non-null delta value overwrites, a null one keeps the previous value. -/
def overrideIfSome {α : Type} (delta prev : Option α) : Option α :=
  match delta with
  | some v => some v
  | none => prev

/-- Key-by-key preference merge (the `preferences` branch of the loop in
`IntentNode.__call__`): only non-null delta keys overwrite. -/
def mergePreferences (prev delta : TravelPreferences) : TravelPreferences where
  family_friendly := overrideIfSome delta.family_friendly prev.family_friendly
  luxury := overrideIfSome delta.luxury prev.luxury
  budget_friendly := overrideIfSome delta.budget_friendly prev.budget_friendly
  adventure := overrideIfSome delta.adventure prev.adventure
  cultural := overrideIfSome delta.cultural prev.cultural
  relaxation := overrideIfSome delta.relaxation prev.relaxation

/-- The constraint-merge loop of `IntentNode.__call__` (lines 120-152),
spelled per key of the delta dict, which always holds exactly the keys
`budget_usd`, `dates`, `airports`, `preferences`:
* a `None` scalar is skipped, a non-null one overwrites
  (`value is not None and value != {} and value != []`);
* the dates sub-dict always passes that test (it always has both keys), and
  inside it only a non-empty (truthy) date string overwrites;
* the airports list overwrites only when non-empty;
* the preferences sub-dict always passes the test and is merged key by key.
`previous = none` models the Python-falsy previous constraints (`None` or
the empty dict), for which the extracted delta is returned unchanged. -/
def mergeConstraints (previous : Option TravelConstraints)
    (delta : TravelConstraints) : TravelConstraints :=
  match previous with
  | none => delta
  | some prev =>
      { budget_usd := overrideIfSome delta.budget_usd prev.budget_usd
        dates :=
          { start := if delta.dates.start.isEmpty then prev.dates.start
                     else delta.dates.start
            «end» := if delta.dates.«end».isEmpty then prev.dates.«end»
                     else delta.dates.«end» }
        airports := if delta.airports.isEmpty then prev.airports else delta.airports
        preferences := mergePreferences prev.preferences delta.preferences }

/-! ## Orchestration state machine -/

/-- `app/schemas/agent.py` `AgentState`, with messages kept as plain
strings and the constraints dict typed by the keys its downstream consumer
(the verifier) reads. -/
structure AgentState where
  session_id : String := "session"
  messages : List String := []
  constraints : VConstraints := {}
  plan : List PlanStep := []
  tool_calls : List ToolCall := []
  itinerary : Option Itin := none
  citations : List String := []
  decisions : List String := []
  violations : List String := []
  answer_markdown : String := ""
  done : Bool := false
deriving Repr

/-- Result of one `ExecutorNode.__call__` round, after applying the node's
state update: the new state, whether the stuck-graph warning was printed,
and the ids dispatched this round (`executed_step_ids`). -/
structure ExecutorOutput where
  state : AgentState
  warnedStuck : Bool := false
  dispatchedIds : List String := []
deriving Repr

/-- `ExecutorNode.__call__`: empty plan leaves the state unchanged; a
non-empty plan with no executable step is the stuck-graph branch (warning,
plan cleared, tool calls untouched); otherwise the executable steps run,
are removed from the plan, and their tool calls are appended. An exception
inside the round body is caught by the node's `except` handler, which
returns `plan: []` and `tool_calls: []`, resetting both fields. -/
def executorNode (invoker : String → List (String × String) → String)
    (now : Nat) (st : AgentState) : ExecutorOutput :=
  if st.plan.isEmpty then { state := st }
  else
    let executable := findExecutableSteps st.plan st.tool_calls
    if executable.isEmpty then
      { state := { st with plan := [] }, warnedStuck := true }
    else
      match executeSteps invoker now executable with
      | .ok newCalls =>
          let executedIds := executable.map (·.id)
          { state := { st with
              messages := st.messages ++ ["executed tools"]
              plan := st.plan.filter (fun s => !(executedIds.contains s.id))
              tool_calls := st.tool_calls ++ newCalls }
            dispatchedIds := executedIds }
      | .error _ => { state := { st with plan := [], tool_calls := [] } }

/-- The workflow nodes registered in `create_agent_workflow`, plus the
`END` vertex. -/
inductive NodeId where
  | intent | planner | executor | synthesizer | validator | repair | responder
  | terminal
deriving DecidableEq, Repr

/-- `router_decision` in `create_agent_workflow`: to the synthesizer once
the plan is empty, otherwise (back) to the executor. -/
def routerDecision (st : AgentState) : NodeId :=
  if st.plan.isEmpty then .synthesizer else .executor

/-- `validator_router` in `create_agent_workflow`: to the responder with
zero violations, otherwise to repair. -/
def validatorRouter (st : AgentState) : NodeId :=
  if st.violations.isEmpty then .responder else .repair

/-- The external inputs of one run: the Reasoner (LLM) outputs consumed by
the intent/planner/synthesizer/responder nodes, the clock, the uuid supply
and the tool invoker. -/
structure Env where
  intentConstraints : VConstraints := {}
  plannerSteps : List PlanStep := []
  synthItinerary : Option Itin := none
  synthCitations : List String := []
  synthDecisions : List String := []
  responderMarkdown : String := ""
  nowDay : Int := 0
  execNow : Nat := 0
  idSupply : Nat → String := fun k => toString k
  invoker : String → List (String × String) → String := fun _ _ => "result"

/-- One node execution plus the outgoing edge/conditional-edge routing of
`create_agent_workflow`; `fresh` threads the uuid supply for repair
rounds. -/
def stepNode (env : Env) : NodeId → AgentState → Nat → AgentState × NodeId × Nat
  | .intent, st, fresh =>
      ({ st with constraints := env.intentConstraints
                 messages := st.messages ++ ["intent"] }, .planner, fresh)
  | .planner, st, fresh =>
      let st' := { st with plan := env.plannerSteps
                           messages := st.messages ++ ["planner"] }
      (st', routerDecision st', fresh)
  | .executor, st, fresh =>
      let out := executorNode env.invoker env.execNow st
      (out.state, routerDecision out.state, fresh)
  | .synthesizer, st, fresh =>
      let st' := { st with itinerary := env.synthItinerary
                           citations := st.citations ++ env.synthCitations
                           decisions := env.synthDecisions
                           messages := st.messages ++ ["synthesizer"] }
      (st', .validator, fresh)
  | .validator, st, fresh =>
      let st' := { st with violations := verify env.nowDay st.itinerary st.constraints }
      (st', validatorRouter st', fresh)
  | .repair, st, fresh =>
      let st' := { st with plan := repairNodeCall env.idSupply fresh st.violations st.plan }
      (st', routerDecision st', fresh + st.violations.length)
  | .responder, st, fresh =>
      ({ st with answer_markdown := env.responderMarkdown
                 done := true
                 messages := st.messages ++ ["responder"] }, .terminal, fresh)
  | .terminal, st, fresh => (st, .terminal, fresh)

/-- The langgraph driver `workflow.invoke(..., recursion_limit = n)`: run
node super-steps until `END`; if the limit is exhausted first, the library
raises `GraphRecursionError`. -/
def runLoop (env : Env) : Nat → NodeId → AgentState → Nat → Except String AgentState
  | _, .terminal, st, _ => .ok st
  | 0, _, _, _ => .error "GraphRecursionError"
  | n + 1, node, st, fresh =>
      let next := stepNode env node st fresh
      runLoop env n next.2.1 next.1 next.2.2

/-- `AgentService._create_initial_state`: empty collections, `done` false,
constraints taken from the plan store for a modification request. -/
def initialState (priorConstraints : VConstraints) : AgentState :=
  { constraints := priorConstraints, messages := ["system", "user prompt"] }

/-- `AgentService.create_travel_plan`'s workflow invocation with
`recursion_limit = 20`. -/
def invokeWorkflow (env : Env) (priorConstraints : VConstraints) :
    Except String AgentState :=
  runLoop env 20 .intent (initialState priorConstraints) 0

/-- The `Run.status` value after `AgentService.create_travel_plan`: the run
record is created with status `"pending"`; on a normal workflow return the
service sets `"completed"` or `"failed"` from the `done` flag; a
`GraphRecursionError` escaping `workflow.invoke` is not caught anywhere in
`create_travel_plan`, so `_update_run_record` never runs and the status
stays `"pending"`. -/
def runStatusAfterBatch (env : Env) (priorConstraints : VConstraints) : String :=
  match invokeWorkflow env priorConstraints with
  | .ok fs => if fs.done then "completed" else "failed"
  | .error _ => "pending"

/-! ## Concrete fixtures used by the theorems -/

/-- A stand-in for the built-in tool bodies (their result strings are
irrelevant to every property proved here). -/
def stubInvoker : String → List (String × String) → String := fun _ _ => "result"

/-- Step `A` of the three-step example plan: no dependencies. -/
def c1StepA : PlanStep := ⟨"A", [], "weather", .dict [("location", "Paris"), ("days", "3")]⟩

/-- Step `B` of the example plan: depends on `A`; its tool is unknown to the
executor, so its tool call completes in error. -/
def c1StepB : PlanStep := ⟨"B", ["A"], "mystery_tool", .dict []⟩

/-- Step `C` of the example plan: depends on `A` and `B`. -/
def c1StepC : PlanStep := ⟨"C", ["A", "B"], "agent", .dict [("prompt", "decide")]⟩

/-- First executor round on the example plan. -/
def c1Round1 : ExecutorOutput :=
  executorNode stubInvoker 0 { plan := [c1StepA, c1StepB, c1StepC] }

/-- Second executor round. -/
def c1Round2 : ExecutorOutput := executorNode stubInvoker 1 c1Round1.state

/-- Third executor round. -/
def c1Round3 : ExecutorOutput := executorNode stubInvoker 2 c1Round2.state

/-! ## Claim theorems -/

/-- C1: a step is selected for execution in a round iff every id in its
`depends_on` list appears among the ids of tool calls with a non-null
`completed` timestamp (error or success alike); a step with no dependencies
is always eligible; and on the plan with ids `{A, B, C}`, `B depends_on [A]`,
`C depends_on [A, B]`, the rounds dispatch `{A}`, then `{B}` (whose call
ends in error), then `{C}`, emptying the plan. -/
theorem scheduler_readiness_and_round_order :
    (∀ (plan : List PlanStep) (tool_calls : List ToolCall) (step : PlanStep),
      step ∈ findExecutableSteps plan tool_calls ↔
        step ∈ plan ∧ ∀ dep ∈ step.depends_on, dep ∈ completedStepIds tool_calls) ∧
    (∀ (plan : List PlanStep) (tool_calls : List ToolCall) (step : PlanStep),
      step ∈ plan → step.depends_on = [] → step ∈ findExecutableSteps plan tool_calls) ∧
    c1Round1.dispatchedIds = ["A"] ∧
    c1Round2.dispatchedIds = ["B"] ∧
    c1Round3.dispatchedIds = ["C"] ∧
    c1Round3.state.plan = [] ∧
    (c1Round2.state.tool_calls.map fun tc =>
      (tc.id, tc.error.isSome, tc.completed_at.isSome)) =
        [("A", false, true), ("B", true, true)] := by
  refine ⟨?_, ?_, rfl, rfl, rfl, rfl, rfl⟩
  · intro plan tool_calls step
    simp [findExecutableSteps, List.mem_filter, List.all_eq_true]
  · intro plan tool_calls step hmem hdep
    simp [findExecutableSteps, List.mem_filter, hmem, hdep]

/-- Witness for C1 at concrete inputs: the dependency-free step `A` is
eligible on an empty tool-call log. -/
theorem scheduler_readiness_and_round_order_witness :
    c1StepA ∈ findExecutableSteps [c1StepA, c1StepB] [] :=
  scheduler_readiness_and_round_order.2.1 [c1StepA, c1StepB] [] c1StepA
    (by simp) rfl

/-- C6: verifying an absent itinerary, or one with an empty day list,
returns exactly the single "no itinerary" violation, skipping every other
rule, and repeated invocations (even at different clock values) return the
same single violation. -/
theorem verifier_empty_itinerary_short_circuit :
    ∀ (c : VConstraints) (now now' : Int) (itin : Itin),
      verify now none c = ["No itinerary found to validate"] ∧
      (itin.days = [] → verify now (some itin) c = ["No itinerary found to validate"]) ∧
      verify now none c = verify now' none c ∧
      (itin.days = [] → verify now (some itin) c = verify now' (some itin) c) := by
  intro c now now' itin
  refine ⟨rfl, fun h => ?_, rfl, fun h => ?_⟩ <;> simp [verify, h]

/-- Witness for C6: a zero-day itinerary with a recorded total cost yields
exactly the single violation. -/
theorem verifier_empty_itinerary_short_circuit_witness :
    verify 0 (some { total_cost_usd := some 600, days := [] }) { budget := some 500 } =
      ["No itinerary found to validate"] :=
  (verifier_empty_itinerary_short_circuit { budget := some 500 } 0 1
    { total_cost_usd := some 600, days := [] }).2.1 rfl

/-- An itinerary whose single day contains a park activity, making the
weather rule's clock read observable. -/
def c7Itin : Itin :=
  { days := [{ activities := [{ name := "park stroll", description := "morning walk" }] }] }

/-- Constraints with only a start date, as read by the weather rule. -/
def c7Cons : VConstraints := { start_date := some "2026-10-20" }

/-- A clock value five days before the trip start. -/
def c7NearNow : Int := (parseDate10 "2026-10-20").getD 0 - 5

/-- A clock value fifty days before the trip start. -/
def c7FarNow : Int := (parseDate10 "2026-10-20").getD 0 - 50

/-- Counterexample to C7 as stated: on identical itinerary/constraints
inputs, the verifier's weather rule reads the ambient clock
(`datetime.now()` in `_check_weather_appropriateness`), so two invocations
at different times return different violation lists. -/
theorem verifier_clock_dependence_counterexample :
    verify c7NearNow (some c7Itin) c7Cons ≠ verify c7FarNow (some c7Itin) c7Cons := by
  have h1 : verify c7NearNow (some c7Itin) c7Cons =
      ["Day 1 has outdoor activities - verify weather conditions for 2026-10-20"] := rfl
  have h2 : verify c7FarNow (some c7Itin) c7Cons = [] := rfl
  rw [h1, h2]
  simp

/-- C7 (amended): the verifier is deterministic given its arguments and the
current clock day; the weather rule is its only clock access, so whenever no
start-date constraint is set the result is clock-independent. -/
theorem verifier_determinism_given_clock :
    ∀ (itin : Option Itin) (c : VConstraints) (now now' : Int),
      c.start_date = none → verify now itin c = verify now' itin c := by
  intro itin c now now' h
  cases itin with
  | none => rfl
  | some i =>
      by_cases hd : i.days.isEmpty <;>
        simp [verify, hd, checkWeatherAppropriateness, h, truthyStr]

/-- Witness for C7 (amended) at concrete inputs. -/
theorem verifier_determinism_given_clock_witness :
    verify 0 (some c7Itin) {} = verify 99 (some c7Itin) {} :=
  verifier_determinism_given_clock (some c7Itin) {} 0 99 rfl

/-- C8: a round whose plan is non-empty but has zero ready steps emits the
stuck-graph warning, clears the plan, dispatches nothing, leaves the
tool-call log untouched, and routes the run onward to the synthesizer. -/
theorem stuck_graph_terminates_round :
    ∀ (invoker : String → List (String × String) → String) (now : Nat)
      (st : AgentState),
      st.plan ≠ [] →
      findExecutableSteps st.plan st.tool_calls = [] →
      (executorNode invoker now st).warnedStuck = true ∧
      (executorNode invoker now st).state.plan = [] ∧
      (executorNode invoker now st).state.tool_calls = st.tool_calls ∧
      (executorNode invoker now st).dispatchedIds = [] ∧
      routerDecision (executorNode invoker now st).state = NodeId.synthesizer := by
  intro invoker now st h1 h2
  have hp : st.plan.isEmpty = false := by
    cases hpl : st.plan with
    | nil => exact absurd hpl h1
    | cons a l => rfl
  simp [executorNode, hp, h2, routerDecision]

/-- Witness for C8: a mutually cyclic two-step plan with a non-empty prior
tool-call log. -/
theorem stuck_graph_terminates_round_witness :
    (executorNode stubInvoker 7
      { plan := [⟨"A", ["B"], "weather", .dict []⟩, ⟨"B", ["A"], "weather", .dict []⟩]
        tool_calls := [] }).warnedStuck = true ∧
    (executorNode stubInvoker 7
      { plan := [⟨"A", ["B"], "weather", .dict []⟩, ⟨"B", ["A"], "weather", .dict []⟩]
        tool_calls := [] }).state.plan = [] ∧
    (executorNode stubInvoker 7
      { plan := [⟨"A", ["B"], "weather", .dict []⟩, ⟨"B", ["A"], "weather", .dict []⟩]
        tool_calls := [] }).state.tool_calls = [] ∧
    (executorNode stubInvoker 7
      { plan := [⟨"A", ["B"], "weather", .dict []⟩, ⟨"B", ["A"], "weather", .dict []⟩]
        tool_calls := [] }).dispatchedIds = [] ∧
    routerDecision (executorNode stubInvoker 7
      { plan := [⟨"A", ["B"], "weather", .dict []⟩, ⟨"B", ["A"], "weather", .dict []⟩]
        tool_calls := [] }).state = NodeId.synthesizer :=
  stuck_graph_terminates_round stubInvoker 7
    { plan := [⟨"A", ["B"], "weather", .dict []⟩, ⟨"B", ["A"], "weather", .dict []⟩]
      tool_calls := [] } (by decide) (by decide)

/-- C3: merging a delta onto previous constraints overwrites the budget only
when the delta value is non-null, the airports list only when non-empty,
each date field only when the delta string is non-empty, and each preference
key independently only when that key's delta value is non-null; the claim's
concrete example merges as stated; and a null previous record returns the
delta unchanged. -/
theorem constraint_merge_never_erases :
    (∀ delta : TravelConstraints, mergeConstraints none delta = delta) ∧
    (∀ prev delta : TravelConstraints,
      (mergeConstraints (some prev) delta).budget_usd =
        (if delta.budget_usd = none then prev.budget_usd else delta.budget_usd) ∧
      (mergeConstraints (some prev) delta).airports =
        (if delta.airports = [] then prev.airports else delta.airports) ∧
      (mergeConstraints (some prev) delta).dates.start =
        (if delta.dates.start = "" then prev.dates.start else delta.dates.start) ∧
      (mergeConstraints (some prev) delta).dates.«end» =
        (if delta.dates.«end» = "" then prev.dates.«end» else delta.dates.«end») ∧
      (mergeConstraints (some prev) delta).preferences.family_friendly =
        (if delta.preferences.family_friendly = none then prev.preferences.family_friendly
         else delta.preferences.family_friendly) ∧
      (mergeConstraints (some prev) delta).preferences.luxury =
        (if delta.preferences.luxury = none then prev.preferences.luxury
         else delta.preferences.luxury) ∧
      (mergeConstraints (some prev) delta).preferences.budget_friendly =
        (if delta.preferences.budget_friendly = none then prev.preferences.budget_friendly
         else delta.preferences.budget_friendly) ∧
      (mergeConstraints (some prev) delta).preferences.adventure =
        (if delta.preferences.adventure = none then prev.preferences.adventure
         else delta.preferences.adventure) ∧
      (mergeConstraints (some prev) delta).preferences.cultural =
        (if delta.preferences.cultural = none then prev.preferences.cultural
         else delta.preferences.cultural) ∧
      (mergeConstraints (some prev) delta).preferences.relaxation =
        (if delta.preferences.relaxation = none then prev.preferences.relaxation
         else delta.preferences.relaxation)) ∧
    mergeConstraints
      (some { budget_usd := some 500, preferences := { luxury := some true } })
      { budget_usd := none, preferences := { luxury := none, adventure := some true } } =
      { budget_usd := some 500,
        preferences := { luxury := some true, adventure := some true } } := by
  refine ⟨fun delta => rfl, fun prev delta => ?_, rfl⟩
  refine ⟨?_, ?_, ?_, ?_, ?_, ?_, ?_, ?_, ?_, ?_⟩
  · cases h : delta.budget_usd <;> simp [mergeConstraints, overrideIfSome, h]
  · cases h : delta.airports <;>
      simp [mergeConstraints, h]
  · by_cases h : delta.dates.start = "" <;>
      simp [mergeConstraints, String.isEmpty_iff, h]
  · by_cases h : delta.dates.«end» = "" <;>
      simp [mergeConstraints, String.isEmpty_iff, h]
  · cases h : delta.preferences.family_friendly <;>
      simp [mergeConstraints, mergePreferences, overrideIfSome, h]
  · cases h : delta.preferences.luxury <;>
      simp [mergeConstraints, mergePreferences, overrideIfSome, h]
  · cases h : delta.preferences.budget_friendly <;>
      simp [mergeConstraints, mergePreferences, overrideIfSome, h]
  · cases h : delta.preferences.adventure <;>
      simp [mergeConstraints, mergePreferences, overrideIfSome, h]
  · cases h : delta.preferences.cultural <;>
      simp [mergeConstraints, mergePreferences, overrideIfSome, h]
  · cases h : delta.preferences.relaxation <;>
      simp [mergeConstraints, mergePreferences, overrideIfSome, h]

/-- The priority classification of a violation string to a repair tool as
the spec states it: budget/cost, then day+conflict/activities, then
location/feasible, then weather/outdoor, then
kid-friendly/museum/preference, then date+exceed/available, else the
generic fixer; first match wins. -/
def claimedRepairTool (v : String) : String :=
  if violationHasBudget v then "budget_optimizer"
  else if violationHasSchedule v then "schedule_optimizer"
  else if violationHasLocation v then "location_optimizer"
  else if violationHasWeather v then "weather_adapter"
  else if violationHasPreference v then "preference_aligner"
  else if violationHasDate v then "date_adjuster"
  else "generic_fixer"

theorem mkRepairTask_tool (idv v : String) :
    (mkRepairTask idv v).tool = claimedRepairTool v := by
  simp [mkRepairTask, claimedRepairTool, apply_ite PlanStep.tool]

theorem mkRepairTask_depends (idv v : String) :
    (mkRepairTask idv v).depends_on = [] := by
  simp [mkRepairTask, apply_ite PlanStep.depends_on]

theorem mkRepairTask_id (idv v : String) : (mkRepairTask idv v).id = idv := by
  simp [mkRepairTask, apply_ite PlanStep.id]

theorem generateRepairTasks_length (ids : Nat → String) (fresh : Nat)
    (vs : List String) : (generateRepairTasks ids fresh vs).length = vs.length := by
  induction vs generalizing fresh with
  | nil => rfl
  | cons v rest ih => simp [generateRepairTasks, ih]

theorem generateRepairTasks_tools (ids : Nat → String) (fresh : Nat)
    (vs : List String) :
    (generateRepairTasks ids fresh vs).map (·.tool) = vs.map claimedRepairTool := by
  induction vs generalizing fresh with
  | nil => rfl
  | cons v rest ih => simp [generateRepairTasks, mkRepairTask_tool, ih]

theorem generateRepairTasks_depends (ids : Nat → String) (fresh : Nat)
    (vs : List String) :
    ∀ t ∈ generateRepairTasks ids fresh vs, t.depends_on = [] := by
  induction vs generalizing fresh with
  | nil => intro t ht; cases ht
  | cons v rest ih =>
      intro t ht
      rcases List.mem_cons.mp ht with h | h
      · subst h; exact mkRepairTask_depends _ _
      · exact ih _ t h

theorem generateRepairTasks_ids (ids : Nat → String) (fresh : Nat)
    (vs : List String) :
    (generateRepairTasks ids fresh vs).map (·.id) =
      (List.range vs.length).map (fun k => ids (fresh + k)) := by
  induction vs generalizing fresh with
  | nil => rfl
  | cons v rest ih =>
      simp only [generateRepairTasks, List.map_cons, mkRepairTask_id, ih,
        List.length_cons, List.range_succ_eq_map, List.map_map]
      refine congrArg₂ _ (by rw [Nat.add_zero]) ?_
      refine List.map_congr_left fun k _ => ?_
      simp only [Function.comp_apply]
      congr 1
      omega

/-- C5: one repair step per violation (no deduplication), each with an
empty `depends_on`, tool given by the first-match priority classification,
id drawn fresh from the uuid supply; for an injective supply avoiding every
previously seen id the emitted ids are pairwise distinct and unseen; and
the claim's budget example yields exactly one `budget_optimizer` step. -/
theorem repair_generation :
    (∀ (ids : Nat → String) (fresh : Nat) (vs : List String),
      (generateRepairTasks ids fresh vs).length = vs.length ∧
      (generateRepairTasks ids fresh vs).map (·.tool) = vs.map claimedRepairTool ∧
      (∀ t ∈ generateRepairTasks ids fresh vs, t.depends_on = []) ∧
      (generateRepairTasks ids fresh vs).map (·.id) =
        (List.range vs.length).map (fun k => ids (fresh + k))) ∧
    (∀ (ids : Nat → String) (fresh : Nat) (vs : List String) (seen : List String),
      Function.Injective ids → (∀ k, ids k ∉ seen) →
      ((generateRepairTasks ids fresh vs).map (·.id)).Nodup ∧
      ∀ t ∈ generateRepairTasks ids fresh vs, t.id ∉ seen) ∧
    generateRepairTasks (fun k => "uuid-" ++ toString k) 0
        ["Total cost exceeds budget of $500"] =
      [⟨"uuid-0", [], "budget_optimizer",
        mkRepairArgs "Total cost exceeds budget of $500" "reduce_costs"
          "activities_and_accommodations"⟩] := by
  refine ⟨fun ids fresh vs => ⟨generateRepairTasks_length ids fresh vs,
      generateRepairTasks_tools ids fresh vs,
      generateRepairTasks_depends ids fresh vs,
      generateRepairTasks_ids ids fresh vs⟩,
    fun ids fresh vs seen hinj hseen => ⟨?_, ?_⟩, rfl⟩
  · rw [generateRepairTasks_ids]
    refine List.Nodup.map (fun a b hab => ?_) (List.nodup_range vs.length)
    have := hinj hab
    omega
  · intro t ht
    have hmem : t.id ∈ (generateRepairTasks ids fresh vs).map (·.id) :=
      List.mem_map_of_mem _ ht
    rw [generateRepairTasks_ids] at hmem
    simp only [List.mem_map] at hmem
    obtain ⟨k, -, hk⟩ := hmem
    rw [← hk]
    exact hseen _

/-- Witness for C5's hypothesised conjunct at a concrete injective supply
and seen-set. -/
theorem repair_generation_witness :
    ((generateRepairTasks (fun k => String.mk (List.replicate k 'a')) 3
        ["over budget", "bad weather"]).map (·.id)).Nodup ∧
    ∀ t ∈ generateRepairTasks (fun k => String.mk (List.replicate k 'a')) 3
        ["over budget", "bad weather"], t.id ∉ ([] : List String) :=
  repair_generation.2.1 (fun k => String.mk (List.replicate k 'a')) 3
    ["over budget", "bad weather"] []
    (fun a b hab => by
      have := congrArg (fun s : String => s.data.length) hab
      simpa using this)
    (fun k => by simp)

/-- The seven tool names the repair generator can emit. -/
def repairToolNames : List String :=
  ["budget_optimizer", "schedule_optimizer", "location_optimizer", "weather_adapter",
   "preference_aligner", "date_adjuster", "generic_fixer"]

theorem claimedRepairTool_mem (v : String) : claimedRepairTool v ∈ repairToolNames := by
  unfold claimedRepairTool
  split_ifs <;> simp [repairToolNames]

theorem mkRepairTask_args_dict (idv v : String) :
    ∃ kvs, (mkRepairTask idv v).args = .dict kvs := by
  unfold mkRepairTask
  split_ifs <;> exact ⟨_, rfl⟩

theorem executeSingleStep_unknown
    (invoker : String → List (String × String) → String) (t : String)
    (args : List (String × String)) (h : t ∉ executorKnownTools) :
    executeSingleStep invoker t args = .error ("Unknown tool: " ++ t) := by
  simp only [executorKnownTools, List.mem_cons, List.not_mem_nil, or_false,
    not_or] at h
  obtain ⟨h1, h2, h3⟩ := h
  simp [executeSingleStep, h1, h2, h3]

theorem buildToolCalls_all_dict (now : Nat) (steps : List PlanStep)
    (h : ∀ s ∈ steps, ∃ kvs, s.args = Args.dict kvs) :
    ∃ tcs, buildToolCalls now steps = .ok tcs ∧ tcs.length = steps.length ∧
      ∀ tc ∈ tcs, tc.result = none ∧ tc.error = none ∧ tc.started_at = now ∧
        tc.tool ∈ steps.map (·.tool) := by
  induction steps with
  | nil => exact ⟨[], rfl, rfl, by simp⟩
  | cons s rest ih =>
      obtain ⟨kvs, hargs⟩ := h s (List.mem_cons_self s rest)
      obtain ⟨tcs, hb, hlen, hprops⟩ :=
        ih (fun x hx => h x (List.mem_cons_of_mem s hx))
      refine ⟨{ id := s.id, tool := s.tool, args := kvs, started_at := now } :: tcs,
        ?_, by simp [hlen], ?_⟩
      · simp [buildToolCalls, buildToolCall, hargs, hb]
      · intro tc htc
        rcases List.mem_cons.mp htc with hh | hh
        · subst hh; simp
        · obtain ⟨p1, p2, p3, p4⟩ := hprops tc hh
          exact ⟨p1, p2, p3, List.mem_cons_of_mem _ p4⟩

theorem executeSteps_unknown_tools
    (invoker : String → List (String × String) → String) (now : Nat)
    (steps : List PlanStep)
    (hd : ∀ s ∈ steps, ∃ kvs, s.args = Args.dict kvs)
    (ht : ∀ s ∈ steps, s.tool ∉ executorKnownTools) :
    ∃ calls, executeSteps invoker now steps = .ok calls ∧
      calls.length = steps.length ∧
      ∀ tc ∈ calls, tc.result = none ∧
        tc.error = some ("Unknown tool: " ++ tc.tool) ∧
        tc.completed_at = some now := by
  obtain ⟨tcs, hb, hlen, hprops⟩ := buildToolCalls_all_dict now steps hd
  refine ⟨tcs.map (runStepWithTiming invoker now), ?_, by simp [hlen], ?_⟩
  · simp [executeSteps, hb]
  · intro tc htc
    simp only [List.mem_map] at htc
    obtain ⟨tc0, htc0, hrun⟩ := htc
    obtain ⟨p1, p2, p3, p4⟩ := hprops tc0 htc0
    have hknown : tc0.tool ∉ executorKnownTools := by
      simp only [List.mem_map] at p4
      obtain ⟨s, hs, hst⟩ := p4
      rw [← hst]
      exact ht s hs
    have hrun' : runStepWithTiming invoker now tc0 =
        { tc0 with error := some ("Unknown tool: " ++ tc0.tool),
                   completed_at := some now, duration_ms := some 0 } := by
      simp [runStepWithTiming, executeSingleStep_unknown invoker tc0.tool tc0.args hknown]
    rw [← hrun, hrun']
    exact ⟨p1, rfl, rfl⟩

theorem generateRepairTasks_shape (ids : Nat → String) (fresh : Nat)
    (vs : List String) :
    ∀ t ∈ generateRepairTasks ids fresh vs,
      (∃ kvs, t.args = Args.dict kvs) ∧ t.tool ∈ repairToolNames := by
  induction vs generalizing fresh with
  | nil => intro t ht; cases ht
  | cons v rest ih =>
      intro t ht
      rcases List.mem_cons.mp ht with h | h
      · subst h
        exact ⟨mkRepairTask_args_dict _ _, by
          rw [mkRepairTask_tool]; exact claimedRepairTool_mem v⟩
      · exact ih _ t h

/-- C10: every tool name the repair generator can emit lies outside the
executor's dispatch set, so executing any generated repair round records one
`Unknown tool` error per step: every repair-round tool call completes (has
a non-null completed timestamp) with its error field set and no result. -/
theorem repair_steps_always_complete_in_error :
    (∀ idv v : String, (mkRepairTask idv v).tool ∈ repairToolNames) ∧
    (∀ t ∈ repairToolNames, t ∉ executorKnownTools) ∧
    (∀ (invoker : String → List (String × String) → String) (now : Nat)
       (ids : Nat → String) (fresh : Nat) (vs : List String),
      ∃ calls,
        executeSteps invoker now (generateRepairTasks ids fresh vs) = .ok calls ∧
        calls.length = vs.length ∧
        ∀ tc ∈ calls, tc.result = none ∧
          tc.error = some ("Unknown tool: " ++ tc.tool) ∧
          tc.completed_at = some now) := by
  have hdisj : ∀ t ∈ repairToolNames, t ∉ executorKnownTools := by decide
  refine ⟨fun idv v => by rw [mkRepairTask_tool]; exact claimedRepairTool_mem v,
    hdisj, fun invoker now ids fresh vs => ?_⟩
  obtain ⟨calls, hok, hlen, hprops⟩ := executeSteps_unknown_tools invoker now
    (generateRepairTasks ids fresh vs)
    (fun s hs => (generateRepairTasks_shape ids fresh vs s hs).1)
    (fun s hs => hdisj s.tool (generateRepairTasks_shape ids fresh vs s hs).2)
  exact ⟨calls, hok, by rw [hlen, generateRepairTasks_length], hprops⟩

/-- Witness for C10's hypothesised conjuncts at concrete inputs: the
budget-optimizer tool is not dispatchable. -/
theorem repair_steps_always_complete_in_error_witness :
    "budget_optimizer" ∉ executorKnownTools :=
  repair_steps_always_complete_in_error.2.1 "budget_optimizer" (by decide)

theorem runStepWithTiming_id (invoker : String → List (String × String) → String)
    (now : Nat) (tc : ToolCall) : (runStepWithTiming invoker now tc).id = tc.id := by
  unfold runStepWithTiming
  cases executeSingleStep invoker tc.tool tc.args <;> rfl

theorem buildToolCalls_ok_ids (now : Nat) (steps : List PlanStep)
    (tcs : List ToolCall) (h : buildToolCalls now steps = .ok tcs) :
    tcs.map (·.id) = steps.map (·.id) := by
  induction steps generalizing tcs with
  | nil =>
      simp only [buildToolCalls] at h
      cases h
      rfl
  | cons s rest ih =>
      cases hbc : buildToolCall now s with
      | error e => simp [buildToolCalls, hbc] at h
      | ok tc0 =>
          cases hrest : buildToolCalls now rest with
          | error e => simp [buildToolCalls, hbc, hrest] at h
          | ok tcs' =>
              simp only [buildToolCalls, hbc, hrest, Except.ok.injEq] at h
              have hid : tc0.id = s.id := by
                cases hargs : s.args with
                | dict kvs =>
                    simp only [buildToolCall, hargs, Except.ok.injEq] at hbc
                    rw [← hbc]
                | raw w => simp [buildToolCall, hargs] at hbc
              simp [← h, hid, ih tcs' hrest]

theorem executeSteps_ok_ids (invoker : String → List (String × String) → String)
    (now : Nat) (steps : List PlanStep) (calls : List ToolCall)
    (h : executeSteps invoker now steps = .ok calls) :
    calls.map (·.id) = steps.map (·.id) := by
  cases hb : buildToolCalls now steps with
  | error e => simp [executeSteps, hb] at h
  | ok tcs =>
      simp only [executeSteps, hb, Except.ok.injEq] at h
      rw [← h, List.map_map]
      have : (fun tc => tc.id) ∘ runStepWithTiming invoker now = (·.id) := by
        funext tc
        exact runStepWithTiming_id invoker now tc
      rw [show ((·.id) ∘ runStepWithTiming invoker now :
            ToolCall → String) = (·.id) from this]
      exact buildToolCalls_ok_ids now steps tcs hb

/-- C9 (amended): on every round that completes without an internal
exception, the executor's tool-call list is the previous list extended by
exactly one new record per dispatched step (same ids, in dispatch order);
rounds dispatching nothing leave the list unchanged. A round that ends in
an internal exception instead hits the `except` handler, which resets
`tool_calls` to the empty list. -/
theorem tool_call_log_append_only :
    ∀ (invoker : String → List (String × String) → String) (now : Nat)
      (st : AgentState) (newCalls : List ToolCall),
      executeSteps invoker now (findExecutableSteps st.plan st.tool_calls) =
        .ok newCalls →
      (executorNode invoker now st).state.tool_calls = st.tool_calls ++ newCalls ∧
      newCalls.length = (findExecutableSteps st.plan st.tool_calls).length ∧
      newCalls.map (·.id) = (findExecutableSteps st.plan st.tool_calls).map (·.id) := by
  intro invoker now st newCalls h
  have hids := executeSteps_ok_ids invoker now _ _ h
  have hlen : newCalls.length = (findExecutableSteps st.plan st.tool_calls).length := by
    have := congrArg List.length hids
    simpa using this
  refine ⟨?_, hlen, hids⟩
  by_cases hp : st.plan.isEmpty
  · have hplan : st.plan = [] := by
      cases hq : st.plan with
      | nil => rfl
      | cons a l => rw [hq] at hp; cases hp
    have hexec : findExecutableSteps st.plan st.tool_calls = [] := by
      rw [hplan]; rfl
    rw [hexec] at h
    have hnil : newCalls = [] := by
      simp only [executeSteps, buildToolCalls, List.map_nil, Except.ok.injEq] at h
      exact h.symm
    simp [executorNode, hp, hnil]
  · by_cases he : (findExecutableSteps st.plan st.tool_calls).isEmpty
    · have hexec : findExecutableSteps st.plan st.tool_calls = [] := by
        cases hq : findExecutableSteps st.plan st.tool_calls with
        | nil => rfl
        | cons a l => rw [hq] at he; cases he
      rw [hexec] at h
      have hnil : newCalls = [] := by
        simp only [executeSteps, buildToolCalls, List.map_nil, Except.ok.injEq] at h
        exact h.symm
      simp [executorNode, hp, he, hexec, hnil]
    · simp [executorNode, hp, he, h]

/-- Witness for C9 (amended) at a concrete one-step round. -/
theorem tool_call_log_append_only_witness :
    (executorNode stubInvoker 3 { plan := [c1StepA] }).state.tool_calls =
      [] ++ [⟨"A", "weather", [("location", "Paris"), ("days", "3")],
        some "result", none, 3, some 3, some 0⟩] ∧
    ([⟨"A", "weather", [("location", "Paris"), ("days", "3")],
        some "result", none, 3, some 3, some 0⟩] : List ToolCall).length =
      (findExecutableSteps [c1StepA] []).length ∧
    ([⟨"A", "weather", [("location", "Paris"), ("days", "3")],
        some "result", none, 3, some 3, some 0⟩] : List ToolCall).map (·.id) =
      (findExecutableSteps [c1StepA] []).map (·.id) :=
  tool_call_log_append_only stubInvoker 3 { plan := [c1StepA] }
    [⟨"A", "weather", [("location", "Paris"), ("days", "3")],
      some "result", none, 3, some 3, some 0⟩] rfl

/-- A previously completed tool call sitting in the log. -/
def c9Prev : ToolCall :=
  { id := "old", tool := "weather", args := [], result := some "ok",
    started_at := 0, completed_at := some 1 }

/-- A ready step whose `args` is not a dictionary, making the `ToolCall`
pydantic construction raise inside the round body. -/
def c9Bad : PlanStep := ⟨"bad", [], "weather", .raw "not a dict"⟩

/-- Counterexample to C9 as stated: a round that ends in an internal
exception (here the `ToolCall` validation of a step whose `args` is not a
dict) returns `{"plan": [], "tool_calls": []}` from the executor's `except`
handler, erasing the previously recorded tool call — the previous log is
not a prefix of the produced log. -/
theorem tool_call_log_reset_counterexample :
    (executorNode stubInvoker 5
      { plan := [c9Bad], tool_calls := [c9Prev] }).state.tool_calls = [] ∧
    ¬ [c9Prev] <+: (executorNode stubInvoker 5
      { plan := [c9Bad], tool_calls := [c9Prev] }).state.tool_calls := by
  have h : (executorNode stubInvoker 5
      { plan := [c9Bad], tool_calls := [c9Prev] }).state.tool_calls = [] := rfl
  exact ⟨h, by rw [h]; simp⟩

/-- Step `A` of the mutually cyclic plan. -/
def cycA : PlanStep := ⟨"A", ["B"], "weather", .dict []⟩

/-- Step `B` of the mutually cyclic plan. -/
def cycB : PlanStep := ⟨"B", ["A"], "agent", .dict []⟩

/-- A benign synthesized itinerary that raises no violations under empty
constraints. -/
def c2Itin : Itin :=
  { days := [{ activities := [{ name := "Lunch", description := "meal downtown" }] }] }

/-- An environment in which the planner LLM returns the cyclic plan and the
synthesizer a violation-free itinerary. -/
def c2Env : Env := { plannerSteps := [cycA, cycB], synthItinerary := some c2Itin }

/-- Counterexample to C2 as stated: the cyclic plan `A depends_on [B]`,
`B depends_on [A]` is not rejected anywhere — the planner forwards it, the
router schedules it (sends it to the executor), and the run completes
normally rather than being aborted as failed; no `InvalidPlanError` exists
in the code. -/
theorem invalid_plan_reaches_scheduler_counterexample :
    cycA.depends_on = ["B"] ∧ cycB.depends_on = ["A"] ∧
    (stepNode c2Env .planner (initialState {}) 0).1.plan = [cycA, cycB] ∧
    (stepNode c2Env .planner (initialState {}) 0).2.1 = NodeId.executor ∧
    runStatusAfterBatch c2Env {} = "completed" ∧
    "completed" ≠ "failed" :=
  ⟨rfl, rfl, rfl, rfl, rfl, by decide⟩

/-- C2 (amended): the repository never validates a fresh plan and defines
no `InvalidPlanError`: the planner node forwards the produced steps
unchanged and every non-empty plan — duplicate ids, dangling dependencies
and cycles included — is routed to the scheduler; a fully cyclic plan is
then absorbed by the executor's stuck-graph branch (warning, plan cleared)
and the run proceeds, here to normal completion. -/
theorem plan_validation_absent :
    (∀ (env : Env) (st : AgentState) (fresh : Nat),
      (stepNode env .planner st fresh).1.plan = env.plannerSteps) ∧
    (∀ (env : Env) (st : AgentState) (fresh : Nat),
      env.plannerSteps ≠ [] →
      (stepNode env .planner st fresh).2.1 = NodeId.executor) ∧
    (executorNode stubInvoker 0 { plan := [cycA, cycB] }).warnedStuck = true ∧
    (executorNode stubInvoker 0 { plan := [cycA, cycB] }).state.plan = [] ∧
    runStatusAfterBatch c2Env {} = "completed" := by
  refine ⟨fun env st fresh => rfl, fun env st fresh h => ?_, rfl, rfl, rfl⟩
  cases hq : env.plannerSteps with
  | nil => exact absurd hq h
  | cons a l => simp [stepNode, routerDecision, hq]

/-- Witness for C2's amended hypothesised conjunct: the non-empty cyclic
plan is routed to the executor. -/
theorem plan_validation_absent_witness :
    (stepNode c2Env .planner (initialState {}) 0).2.1 = NodeId.executor :=
  plan_validation_absent.2.1 c2Env (initialState {}) 0 (by decide)

/-- The environment of the iteration-ceiling scenario: the planner returns
an empty plan and the synthesizer never produces an itinerary, so the
verifier's non-empty "no itinerary" violation list recurs on every pass and
the repair loop never ends. -/
def c4Env (nowDay : Int) (execNow : Nat) (idSupply : Nat → String)
    (invoker : String → List (String × String) → String) : Env :=
  { plannerSteps := [], synthItinerary := none, nowDay := nowDay,
    execNow := execNow, idSupply := idSupply, invoker := invoker }

/-- Counterexample to C4 as stated: with a verifier that keeps returning a
non-empty violation list, the workflow exhausts the recursion limit of 20
and the langgraph driver raises `GraphRecursionError`; `create_travel_plan`
has no handler for it, so the exception escapes the orchestration and the
run record keeps its creation-time status `"pending"` — not `"failed"`. -/
theorem iteration_ceiling_counterexample :
    invokeWorkflow (c4Env 0 0 (fun k => toString k) stubInvoker) {} =
      .error "GraphRecursionError" ∧
    runStatusAfterBatch (c4Env 0 0 (fun k => toString k) stubInvoker) {} =
      "pending" ∧
    "pending" ≠ "failed" :=
  ⟨rfl, rfl, by decide⟩

/-- C4 (amended): for every clock value, execution timestamp, tool invoker
and prior constraints (with the uuid draws enumerated as `toString k`), the
always-violating run performs at most the configured 20 stage transitions
and then `workflow.invoke` raises `GraphRecursionError` (no hang); the
exception propagates out of `create_travel_plan` uncaught, so the run
record's status remains `"pending"` rather than being set to `"failed"`. -/
theorem iteration_ceiling_raises_unhandled :
    ∀ (prior : VConstraints) (nowDay : Int) (execNow : Nat)
      (invoker : String → List (String × String) → String),
      invokeWorkflow (c4Env nowDay execNow (fun k => toString k) invoker) prior =
        .error "GraphRecursionError" ∧
      runStatusAfterBatch (c4Env nowDay execNow (fun k => toString k) invoker)
        prior = "pending" := by
  intro prior nowDay execNow invoker
  have h : invokeWorkflow (c4Env nowDay execNow (fun k => toString k) invoker)
      prior = .error "GraphRecursionError" := by
    simp +decide [invokeWorkflow, runLoop, stepNode, c4Env,
      initialState, executorNode, findExecutableSteps, completedStepIds,
      executeSteps, buildToolCalls, buildToolCall, runStepWithTiming,
      executeSingleStep, repairNodeCall, generateRepairTasks, mkRepairTask,
      mkRepairArgs, verify, routerDecision, validatorRouter]
  exact ⟨h, by simp [runStatusAfterBatch, h]⟩

end Atlas
